import Mathlib

/-!
# FbxFormatConverter: a shallow embedding of `src/main.cpp`

The program is glue code around a closed vendor library.  Every vendor call is
modelled as an oracle held by the runtime handle (`FbxManager`), and every call
made by the program is recorded in an explicit state (`SdkState`): the log of
vendor calls and console output in program order, and the list of vendor
objects that are currently alive.
-/

namespace FbxFormatConverter

/-- Selector of the output flavour, `enum class FileFormat` (main.cpp:20-25). -/
inductive FileFormat where
  | Unknown
  | Binary
  | Ascii
  deriving DecidableEq, Repr

/-- One entry of the vendor writer-plugin registry: what `WriterIsFBX( i )` and
`GetWriterFormatDescription( i )` answer for its index. -/
structure WriterFormat where
  isFBX : Bool
  description : String
  deriving DecidableEq, Repr

/-- The three kinds of vendor objects created by the program besides the
runtime handle. -/
inductive ObjKind where
  | importer
  | scene
  | exporter
  deriving DecidableEq, Repr

/-- A vendor object: its kind and the identity the vendor gave it. -/
structure Handle where
  kind : ObjKind
  id : Nat
  deriving DecidableEq, Repr

/-- The vendor runtime handle as the program sees it: the writer registry and
the answers of the vendor calls the program makes.  The answers are arbitrary
functions of the call arguments, so a statement quantified over `FbxManager`
holds for every behaviour of the vendor library. -/
structure FbxManager where
  /-- writer registry, indexed from 0; its length is `GetWriterFormatCount()` -/
  writers : List WriterFormat
  /-- `FbxImporter::Initialize( path, fileFormat, ioSettings )` -/
  importerInit : String → Int → Bool
  /-- `FbxImporter::Import( scene )` for the importer bound to the path -/
  importerImport : String → Bool
  /-- `FbxExporter::Initialize( path, fileFormat, ioSettings )` -/
  exporterInit : String → Int → Bool
  /-- `FbxExporter::Export( scene )` for the exporter bound to path and format -/
  exporterExport : String → Int → Bool
  /-- `GetStatus().GetErrorString()` of the importer bound to the path -/
  importerError : String → String
  /-- `GetStatus().GetErrorString()` of the exporter bound to path and format -/
  exporterError : String → Int → String
  /-- `DetectReaderFileFormat( path, readerID )`: the returned flag and the
  value of the by-reference `readerID` afterwards, given its value before -/
  DetectReaderFileFormat : String → Int → Bool × Int
  /-- `ReaderIsFBX( readerID )` -/
  ReaderIsFBX : Int → Bool

/-- What the program does that is visible outside it, in program order. -/
inductive Event where
  | managerCreate
  | managerDestroy
  | importerCreate (h : Handle)
  | importerInitialize (h : Handle) (path : String) (fileFormat : Int) (ok : Bool)
  | sceneCreate (h : Handle)
  | importerImport (h : Handle) (scene : Handle) (ok : Bool)
  | importerDestroy (h : Handle)
  | exporterCreate (h : Handle)
  | exporterInitialize (h : Handle) (path : String) (fileFormat : Int) (ok : Bool)
  | exporterExport (h : Handle) (scene : Handle) (ok : Bool)
  | exporterDestroy (h : Handle)
  /-- ghost event: control enters `ConvertFbxFile` with these arguments -/
  | enterConvertFbxFile (inputFilepath outputFilepath : String) (outputFormat : FileFormat)
  | printf (text : String)
  deriving DecidableEq, Repr

/-- The mutable world: vendor objects alive (the runtime handle apart) and the
log of events so far, oldest first. -/
structure SdkState where
  live : List Handle
  log : List Event
  deriving DecidableEq, Repr

/-- The state of a process that has not called the vendor yet. -/
def SdkState.empty : SdkState := ⟨[], []⟩

/-- An identity no live object has: one more than the largest in use. -/
def SdkState.freshId (s : SdkState) : Nat :=
  (s.live.map Handle.id).foldr max 0 + 1

/-- Append one event to the log. -/
def SdkState.emit (s : SdkState) (e : Event) : SdkState :=
  { s with log := s.log ++ [e] }

/-- `X::Create( manager, name )`: a new live object of the given kind. -/
def SdkState.create (s : SdkState) (k : ObjKind) : Handle × SdkState :=
  let h : Handle := ⟨k, s.freshId⟩
  (h, { s with live := s.live ++ [h] })

/-- `p->Destroy()`: the object is no longer alive. -/
def SdkState.destroy (s : SdkState) (h : Handle) : SdkState :=
  { s with live := s.live.erase h }

/-! ## The converter object -/

/-- The literal compared against at main.cpp:47. -/
def binaryDescription : String := "FBX binary (*.fbx)"

/-- The literal compared against at main.cpp:51. -/
def asciiDescription : String := "FBX ascii (*.fbx)"

/-- `pIOPluginRegistry->WriterIsFBX( i )`. -/
def FbxManager.WriterIsFBX (m : FbxManager) (i : Nat) : Bool :=
  match m.writers.get? i with
  | some w => w.isFBX
  | none => false

/-- `pIOPluginRegistry->GetWriterFormatDescription( i )`. -/
def FbxManager.GetWriterFormatDescription (m : FbxManager) (i : Nat) : String :=
  match m.writers.get? i with
  | some w => w.description
  | none => ""

/-- `pIOPluginRegistry->GetWriterFormatCount()`. -/
def FbxManager.GetWriterFormatCount (m : FbxManager) : Nat :=
  m.writers.length

/-- The data members of `class FbxConverter` (main.cpp:138-140). -/
structure FbxConverter where
  m_pManager : FbxManager
  m_binaryWriteID : Int
  m_asciiWriterID : Int

/-- One iteration of the loop at main.cpp:42-56 on the pair
`(m_binaryWriteID, m_asciiWriterID)`. -/
def scanStep (m : FbxManager) (ids : Int × Int) (i : Nat) : Int × Int :=
  if m.WriterIsFBX i then
    if m.GetWriterFormatDescription i = binaryDescription then
      ((i : Int), ids.2)
    else if m.GetWriterFormatDescription i = asciiDescription then
      (ids.1, (i : Int))
    else ids
  else ids

/-- The whole loop `for ( int i = 0; i < numWriters; i++ )`, started from the
member initialisers `-1`, `-1`.  The vendor reports the count as an `int`, so
every index of the registry is representable and the counter never wraps. -/
def scanWriters (m : FbxManager) : Int × Int :=
  (List.range m.GetWriterFormatCount).foldl (scanStep m) (-1, -1)

/-- The constructor `FbxConverter::FbxConverter()` (main.cpp:34-62), given what
`FbxManager::Create()` returned (`none` for a null pointer).  `none` is a
failed `assert`. -/
def FbxConverter.new (created : Option FbxManager) : Option FbxConverter :=
  match created with
  | none => none
  | some m =>
    let ids := scanWriters m
    if ids.1 ≠ -1 ∧ ids.2 ≠ -1 then
      some ⟨m, ids.1, ids.2⟩
    else none

/-! ## `ConvertFbxFile` and `IsFbxFile` -/

/-- The word printed for the output flavour at main.cpp:108. -/
def formatName (outputFormat : FileFormat) : String :=
  if outputFormat = FileFormat.Binary then "binary" else "ascii"

/-- The writer chosen at main.cpp:94. -/
def FbxConverter.fileFormatIDToUse (self : FbxConverter) (outputFormat : FileFormat) : Int :=
  if outputFormat = FileFormat.Binary then self.m_binaryWriteID else self.m_asciiWriterID

/-- The method `FbxConverter::ConvertFbxFile` (main.cpp:70-120): the returned
status and the state afterwards.  The first event is the ghost marker of the
call; every other step is one statement of the source. -/
def FbxConverter.ConvertFbxFile (self : FbxConverter) (s : SdkState)
    (inputFilepath outputFilepath : String) (outputFormat : FileFormat) : Int × SdkState :=
  let m := self.m_pManager
  let s := s.emit (.enterConvertFbxFile inputFilepath outputFilepath outputFormat)
  -- FbxImporter::Create
  let (pImporter, s) := s.create .importer
  let s := s.emit (.importerCreate pImporter)
  -- pImporter->Initialize( inputFilepath, -1, ioSettings )
  let initOk := m.importerInit inputFilepath (-1)
  let s := s.emit (.importerInitialize pImporter inputFilepath (-1) initOk)
  if !initOk then
    let s := s.emit (.printf ("Error! Failed to load specified FBX file ( " ++ inputFilepath
      ++ " ): " ++ m.importerError inputFilepath ++ "\n\n"))
    (1, s)
  else
    -- FbxScene::Create
    let (pScene, s) := s.create .scene
    let s := s.emit (.sceneCreate pScene)
    -- pImporter->Import( pScene )
    let importOk := m.importerImport inputFilepath
    let s := s.emit (.importerImport pImporter pScene importOk)
    if !importOk then
      let s := s.emit (.printf ("Error! Failed to import scene from file ( " ++ inputFilepath
        ++ " ): " ++ m.importerError inputFilepath ++ "\n\n"))
      let s := (s.destroy pImporter).emit (.importerDestroy pImporter)
      (1, s)
    else
      let s := (s.destroy pImporter).emit (.importerDestroy pImporter)
      let fileFormatIDToUse := self.fileFormatIDToUse outputFormat
      -- FbxExporter::Create
      let (pExporter, s) := s.create .exporter
      let s := s.emit (.exporterCreate pExporter)
      -- pExporter->Initialize( outputFilepath, fileFormatIDToUse, ioSettings )
      let exInitOk := m.exporterInit outputFilepath fileFormatIDToUse
      let s := s.emit (.exporterInitialize pExporter outputFilepath fileFormatIDToUse exInitOk)
      if !exInitOk then
        let s := s.emit (.printf ("Error! Failed to initialize exporter: "
          ++ m.exporterError outputFilepath fileFormatIDToUse ++ "\n\n"))
        (1, s)
      else
        -- pExporter->Export( pScene )
        let exportOk := m.exporterExport outputFilepath fileFormatIDToUse
        let s := s.emit (.exporterExport pExporter pScene exportOk)
        let s :=
          if exportOk then
            s.emit (.printf ("Success!\nIn: " ++ inputFilepath ++ " \nOut ("
              ++ formatName outputFormat ++ "): " ++ outputFilepath ++ "\n\n"))
          else
            s.emit (.printf ("Error! File export failed: - "
              ++ m.exporterError outputFilepath fileFormatIDToUse ++ "\n\n"))
        let s := (s.destroy pExporter).emit (.exporterDestroy pExporter)
        (0, s)

/-- The method `FbxConverter::IsFbxFile` (main.cpp:122-129).  `none` is the
failed `assert( !inputFilepath.empty() )`. -/
def FbxConverter.IsFbxFile (self : FbxConverter) (inputFilepath : String) : Option Bool :=
  if inputFilepath.isEmpty then none
  else
    let readerID : Int := -1
    let readerID := (self.m_pManager.DetectReaderFileFormat inputFilepath readerID).2
    some (self.m_pManager.ReaderIsFBX readerID)

/-! ## The command line -/

/-- The line of 48 `=` signs printed at main.cpp:147 and 149. -/
def rule : String := "".pushn '=' 48 ++ "\n"

/-- The function `PrintErrorAndHelp` (main.cpp:145-158); `none` is the default
argument `nullptr`. -/
def PrintErrorAndHelp (s : SdkState) (pErrorMessage : Option String) : SdkState :=
  let s := s.emit (.printf rule)
  let s := s.emit (.printf "FBX File Format Converter\n")
  let s := s.emit (.printf rule)
  let s := s.emit (.printf "2020 - Bobby Anguelov - MIT License\n\n")
  let s :=
    match pErrorMessage with
    | some msg => s.emit (.printf ("Error! " ++ msg ++ "\n\n"))
    | none => s
  s.emit (.printf "Convert: -c <input fbx> [-o <output fbx>] \x7b-binary|-ascii\x7d\n")

namespace cli

/-- Modelled from the spec: the header `cmdParser.h` that declares
`cli::Parser` is not among the sources.  The parser is taken as the result it
hands to `main`: whether `run()` accepted the command line, and for each of the
four options the value given on the command line, if any.  Each option is
optional with a default (section 6 of the spec: `-c <input-path>`,
`-o <output-path>` optional, flags `-binary` and `-ascii`). -/
structure Parser where
  run : Bool
  c : Option String
  o : Option String
  binary : Option Bool
  ascii : Option Bool
  deriving DecidableEq, Repr

end cli

/-- The call `cmdParser.get<std::string>( "c" )`, default `""` (main.cpp:166). -/
def getC (p : cli.Parser) : String := p.c.getD ""

/-- The call `cmdParser.get<std::string>( "o" )`, default `""` (main.cpp:167). -/
def getO (p : cli.Parser) : String := p.o.getD ""

/-- The call `cmdParser.get<bool>( "binary" )`, default `false` (main.cpp:168). -/
def getBinary (p : cli.Parser) : Bool := p.binary.getD false

/-- The call `cmdParser.get<bool>( "ascii" )`, default `false` (main.cpp:169). -/
def getAscii (p : cli.Parser) : Bool := p.ascii.getD false

/-- The destructor `FbxConverter::~FbxConverter()` (main.cpp:64-68): destroying
the runtime handle releases every object created through it. -/
def FbxConverter.delete (s : SdkState) : SdkState :=
  { s with live := [] }.emit .managerDestroy

/-- The function `main` (main.cpp:162-208), given what `FbxManager::Create()`
would return and what the command-line parser produced.  The result is the exit
code and the final state, or `none` when an `assert` of the constructor fails
and the process is aborted. -/
def main (created : Option FbxManager) (cmdParser : cli.Parser) : Option (Int × SdkState) :=
  let s := SdkState.empty
  if cmdParser.run then
    -- FbxConverter fbxConverter;
    let s := s.emit .managerCreate
    match FbxConverter.new created with
    | none => none
    | some fbxConverter =>
      let inputConvertPath := getC cmdParser
      if !inputConvertPath.isEmpty then
        let outputAsBinary := getBinary cmdParser
        let outputAsAscii := getAscii cmdParser
        if outputAsAscii && outputAsBinary then
          let s := PrintErrorAndHelp s
            (some "Having both -ascii and -binary arguments is not allowed.")
          some (1, FbxConverter.delete s)
        else if !outputAsAscii && !outputAsBinary then
          let s := PrintErrorAndHelp s (some "Either -ascii or -binary required!")
          some (1, FbxConverter.delete s)
        else
          let outputFormat := if outputAsBinary then FileFormat.Binary else FileFormat.Ascii
          let outputPath := getO cmdParser
          let (_, s) := fbxConverter.ConvertFbxFile s inputConvertPath outputPath outputFormat
          some (0, FbxConverter.delete s)
      else
        let s := PrintErrorAndHelp s none
        some (1, FbxConverter.delete s)
  else
    let s := PrintErrorAndHelp s none
    some (1, s)

/-! ## Observations on logs -/

/-- The event is the creation, initialisation or use of an exporter. -/
def Event.isExporterEvent : Event → Bool
  | .exporterCreate _ => true
  | .exporterInitialize _ _ _ _ => true
  | .exporterExport _ _ _ => true
  | _ => false

/-- The event makes the vendor touch the named output path: the exporter is
bound to it, or exports to it. -/
def Event.touchesOutput : Event → Bool
  | .exporterInitialize _ _ _ _ => true
  | .exporterExport _ _ _ => true
  | _ => false

/-- The event is the creation of an importer or of an exporter. -/
def Event.isCreateImporterOrExporter : Event → Bool
  | .importerCreate _ => true
  | .exporterCreate _ => true
  | _ => false

/-- The event marks a call of `ConvertFbxFile`. -/
def Event.isConvertCall : Event → Bool
  | .enterConvertFbxFile _ _ _ => true
  | _ => false

/-- The events a call added to the log. -/
def newEvents (before after : SdkState) : List Event :=
  after.log.drop before.log.length

/-! ## Auxiliary definitions used in the statements -/

/-- The entry at index `i` is flagged FBX and carries the description `d`. -/
def FbxManager.fbxWriterAt (m : FbxManager) (d : String) (i : Nat) : Prop :=
  ∃ w, m.writers.get? i = some w ∧ w.isFBX = true ∧ w.description = d

/-- The importer handle a call of `ConvertFbxFile` creates in state `s`. -/
def importerOf (s : SdkState) : Handle := ⟨.importer, s.freshId⟩

/-- The scene handle a call of `ConvertFbxFile` creates in state `s`. -/
def sceneOf (s : SdkState) : Handle :=
  ⟨.scene, SdkState.freshId ⟨s.live ++ [importerOf s], []⟩⟩

/-- The exporter handle a call of `ConvertFbxFile` creates in state `s`. -/
def exporterOf (s : SdkState) : Handle :=
  ⟨.exporter, SdkState.freshId ⟨s.live ++ [sceneOf s], []⟩⟩

/-- A vendor runtime used in examples: two writers, and fixed answers to the
four calls of a conversion. -/
def sampleManager (initOk importOk exInitOk exportOk : Bool) : FbxManager where
  writers := [⟨true, "FBX binary (*.fbx)"⟩, ⟨false, "FBX ascii (*.fbx)"⟩,
    ⟨true, "FBX ascii (*.fbx)"⟩]
  importerInit := fun _ _ => initOk
  importerImport := fun _ => importOk
  exporterInit := fun _ _ => exInitOk
  exporterExport := fun _ _ => exportOk
  importerError := fun _ => "File not found"
  exporterError := fun _ _ => "Write failed"
  DetectReaderFileFormat := fun path r => if path = "a.fbx" then (true, 0) else (false, r)
  ReaderIsFBX := fun r => decide (r = 0 ∨ r = 1)

/-- The converter the constructor builds over `sampleManager`. -/
def sampleConverter (initOk importOk exInitOk exportOk : Bool) : FbxConverter :=
  ⟨sampleManager initOk importOk exInitOk exportOk, 0, 2⟩

/-- The state in which `main` calls into the converter: the runtime handle has
been created and nothing else has happened. -/
def startState : SdkState := SdkState.empty.emit .managerCreate

/-- The output flavour `main` selects at main.cpp:193. -/
def selectedFormat (p : cli.Parser) : FileFormat :=
  if getBinary p then FileFormat.Binary else FileFormat.Ascii

/-- A command line used in examples. -/
def sampleArgs (c o : Option String) (binary ascii : Option Bool) : cli.Parser :=
  ⟨true, c, o, binary, ascii⟩

/-! ## Shared lemmas -/

section Lemmas

theorem binary_ne_ascii : binaryDescription ≠ asciiDescription := by decide

theorem fbxWriterAt_iff (m : FbxManager) (d : String) (i : Nat) :
    m.fbxWriterAt d i ↔ (m.WriterIsFBX i = true ∧ m.GetWriterFormatDescription i = d) := by
  unfold FbxManager.fbxWriterAt FbxManager.WriterIsFBX FbxManager.GetWriterFormatDescription
  cases h : m.writers.get? i with
  | none => simp
  | some w => simp

theorem fbxWriterAt_lt (m : FbxManager) (d : String) (i : Nat) (h : m.fbxWriterAt d i) :
    i < m.writers.length := by
  obtain ⟨w, hw, _⟩ := h
  by_contra hn
  have : m.writers.get? i = none := List.get?_eq_none.mpr (Nat.le_of_not_lt hn)
  rw [this] at hw
  cases hw

/-- Loop invariant of the constructor, binary half: after the first `n` indices
the binary ID is still `-1` and none of them is a flagged binary entry, or it is
the index of one of them. -/
theorem scan_fst (m : FbxManager) (n : Nat) :
    (((List.range n).foldl (scanStep m) (-1, -1)).1 = -1 ∧
        ∀ i, i < n → ¬ m.fbxWriterAt binaryDescription i) ∨
      ∃ i, i < n ∧ ((List.range n).foldl (scanStep m) (-1, -1)).1 = (i : Int) ∧
        m.fbxWriterAt binaryDescription i := by
  induction n with
  | zero => left; simp
  | succ n ih =>
    rw [List.range_succ, List.foldl_append]
    simp only [List.foldl_cons, List.foldl_nil]
    by_cases hb : m.fbxWriterAt binaryDescription n
    · right
      refine ⟨n, Nat.lt_succ_self n, ?_, hb⟩
      have hb2 := (fbxWriterAt_iff m _ n).mp hb
      simp [scanStep, hb2.1, hb2.2]
    · have hstep : (scanStep m ((List.range n).foldl (scanStep m) (-1, -1)) n).1
          = ((List.range n).foldl (scanStep m) (-1, -1)).1 := by
        have hb2 : ¬ (m.WriterIsFBX n = true ∧ m.GetWriterFormatDescription n = binaryDescription) :=
          fun h => hb ((fbxWriterAt_iff m _ n).mpr h)
        unfold scanStep
        by_cases h1 : m.WriterIsFBX n = true
        · have h2 : m.GetWriterFormatDescription n ≠ binaryDescription := fun h => hb2 ⟨h1, h⟩
          simp only [h1, h2, if_true, if_false]
          split <;> rfl
        · simp [h1]
      rw [hstep]
      rcases ih with ⟨h0, hall⟩ | ⟨i, hi, hid, hw⟩
      · left
        refine ⟨h0, ?_⟩
        intro i hi
        rcases Nat.lt_succ_iff_lt_or_eq.mp hi with h | h
        · exact hall i h
        · subst h; exact hb
      · right
        exact ⟨i, Nat.lt_succ_of_lt hi, hid, hw⟩

/-- Loop invariant of the constructor, ascii half. -/
theorem scan_snd (m : FbxManager) (n : Nat) :
    (((List.range n).foldl (scanStep m) (-1, -1)).2 = -1 ∧
        ∀ i, i < n → ¬ m.fbxWriterAt asciiDescription i) ∨
      ∃ i, i < n ∧ ((List.range n).foldl (scanStep m) (-1, -1)).2 = (i : Int) ∧
        m.fbxWriterAt asciiDescription i := by
  induction n with
  | zero => left; simp
  | succ n ih =>
    rw [List.range_succ, List.foldl_append]
    simp only [List.foldl_cons, List.foldl_nil]
    by_cases hb : m.fbxWriterAt asciiDescription n
    · right
      refine ⟨n, Nat.lt_succ_self n, ?_, hb⟩
      have hb2 := (fbxWriterAt_iff m _ n).mp hb
      have hne : asciiDescription ≠ binaryDescription := fun h => binary_ne_ascii h.symm
      simp [scanStep, hb2.1, hb2.2, hne]
    · have hstep : (scanStep m ((List.range n).foldl (scanStep m) (-1, -1)) n).2
          = ((List.range n).foldl (scanStep m) (-1, -1)).2 := by
        have hb2 : ¬ (m.WriterIsFBX n = true ∧ m.GetWriterFormatDescription n = asciiDescription) :=
          fun h => hb ((fbxWriterAt_iff m _ n).mpr h)
        unfold scanStep
        by_cases h1 : m.WriterIsFBX n = true
        · have h2 : m.GetWriterFormatDescription n ≠ asciiDescription := fun h => hb2 ⟨h1, h⟩
          simp only [h1, h2, if_true, if_false]
          split <;> rfl
        · simp [h1]
      rw [hstep]
      rcases ih with ⟨h0, hall⟩ | ⟨i, hi, hid, hw⟩
      · left
        refine ⟨h0, ?_⟩
        intro i hi
        rcases Nat.lt_succ_iff_lt_or_eq.mp hi with h | h
        · exact hall i h
        · subst h; exact hb
      · right
        exact ⟨i, Nat.lt_succ_of_lt hi, hid, hw⟩

theorem natCast_ne_neg_one (i : Nat) : (i : Int) ≠ -1 := by omega

end Lemmas

/-! ## The constructor -/

/-- C7: for every writer registry, construction succeeds exactly when some
FBX-flagged entry is described "FBX binary (*.fbx)" and some FBX-flagged entry
is described "FBX ascii (*.fbx)"; on success the stored binary ID is the index
of an FBX-flagged entry with the binary description and the stored ascii ID is
the index of an FBX-flagged entry with the ascii description, so an entry that
is not flagged never supplies an ID. -/
theorem ctor_succeeds_iff_both_writers_found (m : FbxManager) :
    ((FbxConverter.new (some m)).isSome = true ↔
      ((∃ (i : Nat) (w : WriterFormat), m.writers.get? i = some w ∧ w.isFBX = true ∧
          w.description = "FBX binary (*.fbx)") ∧
       (∃ (j : Nat) (w : WriterFormat), m.writers.get? j = some w ∧ w.isFBX = true ∧
          w.description = "FBX ascii (*.fbx)"))) ∧
    (∀ conv, FbxConverter.new (some m) = some conv →
      (∃ (i : Nat) (w : WriterFormat), conv.m_binaryWriteID = (i : Int) ∧ m.writers.get? i = some w ∧
          w.isFBX = true ∧ w.description = "FBX binary (*.fbx)") ∧
      (∃ (j : Nat) (w : WriterFormat), conv.m_asciiWriterID = (j : Int) ∧ m.writers.get? j = some w ∧
          w.isFBX = true ∧ w.description = "FBX ascii (*.fbx)")) := by
  have hB := scan_fst m m.GetWriterFormatCount
  have hA := scan_snd m m.GetWriterFormatCount
  have hnew : FbxConverter.new (some m) =
      if (scanWriters m).1 ≠ -1 ∧ (scanWriters m).2 ≠ -1 then
        some ⟨m, (scanWriters m).1, (scanWriters m).2⟩ else none := rfl
  change (_ ∧ ∀ i, i < m.writers.length → ¬ m.fbxWriterAt binaryDescription i) ∨
    ∃ i, i < m.writers.length ∧ (scanWriters m).1 = (i : Int) ∧
      m.fbxWriterAt binaryDescription i at hB
  change (_ ∧ ∀ i, i < m.writers.length → ¬ m.fbxWriterAt asciiDescription i) ∨
    ∃ i, i < m.writers.length ∧ (scanWriters m).2 = (i : Int) ∧
      m.fbxWriterAt asciiDescription i at hA
  have hBd : ∀ i, m.fbxWriterAt binaryDescription i ↔
      ∃ w, m.writers.get? i = some w ∧ w.isFBX = true ∧
        w.description = "FBX binary (*.fbx)" := fun _ => Iff.rfl
  have hAd : ∀ i, m.fbxWriterAt asciiDescription i ↔
      ∃ w, m.writers.get? i = some w ∧ w.isFBX = true ∧
        w.description = "FBX ascii (*.fbx)" := fun _ => Iff.rfl
  refine ⟨?_, ?_⟩
  · rw [hnew]
    constructor
    · intro h
      split at h
      next hc =>
        rcases hB with ⟨h0, _⟩ | ⟨i, _, _, hw⟩
        · exact absurd h0 hc.1
        rcases hA with ⟨h0, _⟩ | ⟨j, _, _, hw2⟩
        · exact absurd h0 hc.2
        exact ⟨⟨i, (hBd i).mp hw⟩, ⟨j, (hAd j).mp hw2⟩⟩
      next => simp at h
    · rintro ⟨⟨i, hi⟩, ⟨j, hj⟩⟩
      have hi2 : m.fbxWriterAt binaryDescription i := (hBd i).mpr hi
      have hj2 : m.fbxWriterAt asciiDescription j := (hAd j).mpr hj
      rcases hB with ⟨_, hall⟩ | ⟨i2, _, hid, _⟩
      · exact absurd hi2 (hall i (fbxWriterAt_lt m _ i hi2))
      rcases hA with ⟨_, hall⟩ | ⟨j2, _, hjd, _⟩
      · exact absurd hj2 (hall j (fbxWriterAt_lt m _ j hj2))
      have h1 : (scanWriters m).1 ≠ -1 := by rw [hid]; exact natCast_ne_neg_one i2
      have h2 : (scanWriters m).2 ≠ -1 := by rw [hjd]; exact natCast_ne_neg_one j2
      rw [if_pos ⟨h1, h2⟩]
      rfl
  · intro conv hconv
    rw [hnew] at hconv
    split at hconv
    next hc =>
      cases hconv
      rcases hB with ⟨h0, _⟩ | ⟨i, _, hid, hw⟩
      · exact absurd h0 hc.1
      rcases hA with ⟨h0, _⟩ | ⟨j, _, hjd, hw2⟩
      · exact absurd h0 hc.2
      obtain ⟨w, hw⟩ := (hBd i).mp hw
      obtain ⟨w2, hw2⟩ := (hAd j).mp hw2
      exact ⟨⟨i, w, hid, hw⟩, ⟨j, w2, hjd, hw2⟩⟩
    next => cases hconv

/-! ## Paths of `ConvertFbxFile` -/

section Paths

theorem id_le_foldr_max (l : List Handle) (h : Handle) (hm : h ∈ l) :
    h.id ≤ (l.map Handle.id).foldr max 0 := by
  induction l with
  | nil => cases hm
  | cons a t ih =>
    simp only [List.map_cons, List.foldr_cons]
    rcases List.mem_cons.mp hm with rfl | h'
    · exact le_max_left _ _
    · exact le_trans (ih h') (le_max_right _ _)

/-- A handle carrying the fresh identity is none of the live objects. -/
theorem fresh_not_mem (s : SdkState) (k : ObjKind) : (⟨k, s.freshId⟩ : Handle) ∉ s.live := by
  intro hm
  have := id_le_foldr_max s.live _ hm
  simp only [SdkState.freshId] at this
  omega

theorem erase_fresh_mid (l : List Handle) (a b : Handle) (h : a ∉ l) :
    (l ++ [a] ++ [b]).erase a = l ++ [b] := by
  rw [List.append_assoc, List.erase_append_right _ h]
  simp

theorem erase_fresh_last (l : List Handle) (a b : Handle) (h : b ∉ l) (hne : a ≠ b) :
    (l ++ [a] ++ [b]).erase b = l ++ [a] := by
  rw [List.append_assoc, List.erase_append_right _ h]
  simp [List.erase_cons, hne]

theorem importerOf_not_mem (s : SdkState) : importerOf s ∉ s.live := fresh_not_mem s _

theorem sceneOf_not_mem (s : SdkState) : sceneOf s ∉ s.live := by
  intro hm
  have h := fresh_not_mem ⟨s.live ++ [importerOf s], []⟩ .scene
  exact h (List.mem_append_left _ hm)

theorem exporterOf_not_mem (s : SdkState) : exporterOf s ∉ s.live := by
  intro hm
  have h := fresh_not_mem ⟨s.live ++ [sceneOf s], []⟩ .exporter
  exact h (List.mem_append_left _ hm)

theorem sceneOf_ne_exporterOf (s : SdkState) : sceneOf s ≠ exporterOf s := by
  intro h
  have := congrArg Handle.kind h
  simp [sceneOf, exporterOf] at this

/-- Path 1: importer initialisation fails. -/
theorem convert_initFail (self : FbxConverter) (s : SdkState) (inp out : String)
    (fmt : FileFormat) (h1 : self.m_pManager.importerInit inp (-1) = false) :
    self.ConvertFbxFile s inp out fmt =
      (1, ⟨s.live ++ [importerOf s],
        s.log ++ [.enterConvertFbxFile inp out fmt, .importerCreate (importerOf s),
          .importerInitialize (importerOf s) inp (-1) false,
          .printf ("Error! Failed to load specified FBX file ( " ++ inp ++ " ): "
            ++ self.m_pManager.importerError inp ++ "\n\n")]⟩) := by
  simp [FbxConverter.ConvertFbxFile, SdkState.emit, SdkState.create, h1, importerOf,
    SdkState.freshId]

/-- Path 2: importer initialisation succeeds, import fails. -/
theorem convert_importFail (self : FbxConverter) (s : SdkState) (inp out : String)
    (fmt : FileFormat) (h1 : self.m_pManager.importerInit inp (-1) = true)
    (h2 : self.m_pManager.importerImport inp = false) :
    self.ConvertFbxFile s inp out fmt =
      (1, ⟨s.live ++ [sceneOf s],
        s.log ++ [.enterConvertFbxFile inp out fmt, .importerCreate (importerOf s),
          .importerInitialize (importerOf s) inp (-1) true,
          .sceneCreate (sceneOf s),
          .importerImport (importerOf s) (sceneOf s) false,
          .printf ("Error! Failed to import scene from file ( " ++ inp ++ " ): "
            ++ self.m_pManager.importerError inp ++ "\n\n"),
          .importerDestroy (importerOf s)]⟩) := by
  have he := erase_fresh_mid s.live (importerOf s) (sceneOf s) (importerOf_not_mem s)
  simp only [FbxConverter.ConvertFbxFile, SdkState.emit, SdkState.create, SdkState.destroy,
    h1, h2, Bool.not_true, Bool.not_false, if_true, if_false, Bool.false_eq_true]
  simp only [sceneOf, importerOf, SdkState.freshId] at he ⊢
  rw [he]
  simp

/-- Path 3: import succeeds, exporter initialisation fails. -/
theorem convert_exporterInitFail (self : FbxConverter) (s : SdkState) (inp out : String)
    (fmt : FileFormat) (h1 : self.m_pManager.importerInit inp (-1) = true)
    (h2 : self.m_pManager.importerImport inp = true)
    (h3 : self.m_pManager.exporterInit out (self.fileFormatIDToUse fmt) = false) :
    self.ConvertFbxFile s inp out fmt =
      (1, ⟨s.live ++ [sceneOf s] ++ [exporterOf s],
        s.log ++ [.enterConvertFbxFile inp out fmt, .importerCreate (importerOf s),
          .importerInitialize (importerOf s) inp (-1) true,
          .sceneCreate (sceneOf s),
          .importerImport (importerOf s) (sceneOf s) true,
          .importerDestroy (importerOf s),
          .exporterCreate (exporterOf s),
          .exporterInitialize (exporterOf s) out (self.fileFormatIDToUse fmt) false,
          .printf ("Error! Failed to initialize exporter: "
            ++ self.m_pManager.exporterError out (self.fileFormatIDToUse fmt) ++ "\n\n")]⟩) := by
  have he := erase_fresh_mid s.live (importerOf s) (sceneOf s) (importerOf_not_mem s)
  simp only [FbxConverter.ConvertFbxFile, SdkState.emit, SdkState.create, SdkState.destroy,
    h1, h2, h3, Bool.not_true, Bool.not_false, if_true, if_false, Bool.false_eq_true]
  simp only [exporterOf, sceneOf, importerOf, SdkState.freshId] at he ⊢
  rw [he]
  simp

/-- Path 4: both initialisations and the import succeed; the export is
attempted and its outcome only selects the text printed. -/
theorem convert_exported (self : FbxConverter) (s : SdkState) (inp out : String)
    (fmt : FileFormat) (h1 : self.m_pManager.importerInit inp (-1) = true)
    (h2 : self.m_pManager.importerImport inp = true)
    (h3 : self.m_pManager.exporterInit out (self.fileFormatIDToUse fmt) = true) :
    self.ConvertFbxFile s inp out fmt =
      (0, ⟨s.live ++ [sceneOf s],
        s.log ++ [.enterConvertFbxFile inp out fmt, .importerCreate (importerOf s),
          .importerInitialize (importerOf s) inp (-1) true,
          .sceneCreate (sceneOf s),
          .importerImport (importerOf s) (sceneOf s) true,
          .importerDestroy (importerOf s),
          .exporterCreate (exporterOf s),
          .exporterInitialize (exporterOf s) out (self.fileFormatIDToUse fmt) true,
          .exporterExport (exporterOf s) (sceneOf s)
            (self.m_pManager.exporterExport out (self.fileFormatIDToUse fmt)),
          .printf (if self.m_pManager.exporterExport out (self.fileFormatIDToUse fmt) = true then
              "Success!\nIn: " ++ inp ++ " \nOut (" ++ formatName fmt ++ "): " ++ out ++ "\n\n"
            else "Error! File export failed: - "
              ++ self.m_pManager.exporterError out (self.fileFormatIDToUse fmt) ++ "\n\n"),
          .exporterDestroy (exporterOf s)]⟩) := by
  have he := erase_fresh_mid s.live (importerOf s) (sceneOf s) (importerOf_not_mem s)
  have he2 := erase_fresh_last s.live (sceneOf s) (exporterOf s) (exporterOf_not_mem s)
    (sceneOf_ne_exporterOf s)
  simp only [FbxConverter.ConvertFbxFile, SdkState.emit, SdkState.create, SdkState.destroy,
    h1, h2, h3, Bool.not_true, Bool.not_false, if_true, if_false, Bool.false_eq_true]
  simp only [exporterOf, sceneOf, importerOf, SdkState.freshId] at he he2 ⊢
  rw [he]
  cases h4 : self.m_pManager.exporterExport out (self.fileFormatIDToUse fmt)
  · simp only [Bool.false_eq_true, if_false]
    rw [he2]
    simp
  · simp only [if_true]
    rw [he2]
    simp

end Paths

/-! ## Status returned by `ConvertFbxFile` -/

/-- C2: whatever the paths and the target format, `ConvertFbxFile` returns 1
when importer initialisation fails, when it succeeds but the import fails, and
when the import succeeds but exporter initialisation fails. -/
theorem convert_returns_one_on_early_failure (self : FbxConverter) (s : SdkState)
    (inp out : String) (fmt : FileFormat) :
    (self.m_pManager.importerInit inp (-1) = false →
      (self.ConvertFbxFile s inp out fmt).1 = 1) ∧
    (self.m_pManager.importerInit inp (-1) = true →
      self.m_pManager.importerImport inp = false →
      (self.ConvertFbxFile s inp out fmt).1 = 1) ∧
    (self.m_pManager.importerInit inp (-1) = true →
      self.m_pManager.importerImport inp = true →
      self.m_pManager.exporterInit out (self.fileFormatIDToUse fmt) = false →
      (self.ConvertFbxFile s inp out fmt).1 = 1) := by
  refine ⟨?_, ?_, ?_⟩
  · intro h1
    rw [convert_initFail self s inp out fmt h1]
  · intro h1 h2
    rw [convert_importFail self s inp out fmt h1 h2]
  · intro h1 h2 h3
    rw [convert_exporterInitFail self s inp out fmt h1 h2 h3]

/-- C2 at concrete inputs: the three failing paths each return 1. -/
theorem convert_returns_one_on_early_failure_witness :
    ((sampleConverter false true true true).ConvertFbxFile SdkState.empty "in.fbx" "out.fbx"
        FileFormat.Binary).1 = 1 ∧
    ((sampleConverter true false true true).ConvertFbxFile SdkState.empty "in.fbx" "out.fbx"
        FileFormat.Binary).1 = 1 ∧
    ((sampleConverter true true false true).ConvertFbxFile SdkState.empty "in.fbx" "out.fbx"
        FileFormat.Ascii).1 = 1 :=
  ⟨(convert_returns_one_on_early_failure (sampleConverter false true true true) SdkState.empty
      "in.fbx" "out.fbx" FileFormat.Binary).1 rfl,
   (convert_returns_one_on_early_failure (sampleConverter true false true true) SdkState.empty
      "in.fbx" "out.fbx" FileFormat.Binary).2.1 rfl rfl,
   (convert_returns_one_on_early_failure (sampleConverter true true false true) SdkState.empty
      "in.fbx" "out.fbx" FileFormat.Ascii).2.2 rfl rfl rfl⟩

/-- C10: when importer initialisation, import and exporter initialisation all
succeed, `ConvertFbxFile` returns 0 whatever `Export` answers, and the log then
ends with the export call, one line of text and the release of the exporter;
the returned status is 1 exactly when one of the three earlier steps was
reached and failed. -/
theorem convert_status_ignores_export (self : FbxConverter) (s : SdkState)
    (inp out : String) (fmt : FileFormat) :
    (self.m_pManager.importerInit inp (-1) = true →
      self.m_pManager.importerImport inp = true →
      self.m_pManager.exporterInit out (self.fileFormatIDToUse fmt) = true →
      (self.ConvertFbxFile s inp out fmt).1 = 0 ∧
      ∃ text, (newEvents s (self.ConvertFbxFile s inp out fmt).2).drop 8 =
        [.exporterExport (exporterOf s) (sceneOf s)
            (self.m_pManager.exporterExport out (self.fileFormatIDToUse fmt)),
          .printf text, .exporterDestroy (exporterOf s)]) ∧
    ((self.ConvertFbxFile s inp out fmt).1 = 1 ↔
      (self.m_pManager.importerInit inp (-1) = false ∨
       (self.m_pManager.importerInit inp (-1) = true ∧
          self.m_pManager.importerImport inp = false) ∨
       (self.m_pManager.importerInit inp (-1) = true ∧
          self.m_pManager.importerImport inp = true ∧
          self.m_pManager.exporterInit out (self.fileFormatIDToUse fmt) = false))) := by
  refine ⟨?_, ?_⟩
  · intro h1 h2 h3
    rw [convert_exported self s inp out fmt h1 h2 h3]
    refine ⟨rfl, ?_⟩
    simp only [newEvents, List.drop_left]
    exact ⟨_, rfl⟩
  · cases h1 : self.m_pManager.importerInit inp (-1)
    · rw [convert_initFail self s inp out fmt h1]; simp
    cases h2 : self.m_pManager.importerImport inp
    · rw [convert_importFail self s inp out fmt h1 h2]; simp
    cases h3 : self.m_pManager.exporterInit out (self.fileFormatIDToUse fmt)
    · rw [convert_exporterInitFail self s inp out fmt h1 h2 h3]; simp
    · rw [convert_exported self s inp out fmt h1 h2 h3]; simp

/-- C10 at concrete inputs: a failing export and a succeeding export both
return 0. -/
theorem convert_status_ignores_export_witness :
    ((sampleConverter true true true false).ConvertFbxFile SdkState.empty "in.fbx" "out.fbx"
        FileFormat.Binary).1 = 0 ∧
    ((sampleConverter true true true true).ConvertFbxFile SdkState.empty "in.fbx" "out.fbx"
        FileFormat.Binary).1 = 0 :=
  ⟨((convert_status_ignores_export (sampleConverter true true true false) SdkState.empty
      "in.fbx" "out.fbx" FileFormat.Binary).1 rfl rfl rfl).1,
   ((convert_status_ignores_export (sampleConverter true true true true) SdkState.empty
      "in.fbx" "out.fbx" FileFormat.Binary).1 rfl rfl rfl).1⟩

/-! ## Order of the vendor calls -/

theorem newEvents_append (s : SdkState) (l : List Handle) (evs : List Event) :
    newEvents s ⟨l, s.log ++ evs⟩ = evs := by
  simp [newEvents]

/-- C3: in every run of `ConvertFbxFile`, each exporter event (creation,
initialisation, export) comes after a successful `Initialize` and a later
successful `Import` of the importer on the input path; an `Export` call comes
after the creation of its exporter and its successful initialisation on the
output path; and when either import step fails the run has no exporter event,
so nothing touches the output path. -/
theorem export_only_after_successful_import (self : FbxConverter) (s : SdkState)
    (inp out : String) (fmt : FileFormat) :
    (∀ (k : Nat) (e : Event),
      (newEvents s (self.ConvertFbxFile s inp out fmt).2)[k]? = some e →
      e.isExporterEvent = true →
      ∃ (i j : Nat) (h sc : Handle), i < j ∧ j < k ∧
        (newEvents s (self.ConvertFbxFile s inp out fmt).2)[i]? =
          some (.importerInitialize h inp (-1) true) ∧
        (newEvents s (self.ConvertFbxFile s inp out fmt).2)[j]? =
          some (.importerImport h sc true) ∧
        self.m_pManager.importerInit inp (-1) = true ∧
        self.m_pManager.importerImport inp = true) ∧
    (∀ (k : Nat) (h sc : Handle) (ok : Bool),
      (newEvents s (self.ConvertFbxFile s inp out fmt).2)[k]? =
        some (.exporterExport h sc ok) →
      ∃ (a b : Nat) (id : Int), a < b ∧ b < k ∧
        (newEvents s (self.ConvertFbxFile s inp out fmt).2)[a]? =
          some (.exporterCreate h) ∧
        (newEvents s (self.ConvertFbxFile s inp out fmt).2)[b]? =
          some (.exporterInitialize h out id true)) ∧
    ((self.m_pManager.importerInit inp (-1) = false ∨
        self.m_pManager.importerImport inp = false) →
      ∀ e ∈ newEvents s (self.ConvertFbxFile s inp out fmt).2,
        e.isExporterEvent = false ∧ e.touchesOutput = false) := by
  cases h1 : self.m_pManager.importerInit inp (-1)
  · rw [convert_initFail self s inp out fmt h1, newEvents_append]
    refine ⟨?_, ?_, ?_⟩
    · intro k e hk he
      exfalso
      have hm := List.getElem?_mem hk
      revert he
      simp only [List.mem_cons, List.mem_singleton, List.not_mem_nil, or_false] at hm
      rcases hm with rfl | rfl | rfl | rfl <;> simp [Event.isExporterEvent]
    · intro k h sc ok hk
      exfalso
      have hm := List.getElem?_mem hk
      simp at hm
    · intro _ e he
      simp only [List.mem_cons, List.mem_singleton, List.not_mem_nil, or_false] at he
      rcases he with rfl | rfl | rfl | rfl <;>
        simp [Event.isExporterEvent, Event.touchesOutput]
  cases h2 : self.m_pManager.importerImport inp
  · rw [convert_importFail self s inp out fmt h1 h2, newEvents_append]
    refine ⟨?_, ?_, ?_⟩
    · intro k e hk he
      exfalso
      have hm := List.getElem?_mem hk
      revert he
      simp only [List.mem_cons, List.mem_singleton, List.not_mem_nil, or_false] at hm
      rcases hm with rfl | rfl | rfl | rfl | rfl | rfl | rfl <;> simp [Event.isExporterEvent]
    · intro k h sc ok hk
      exfalso
      have hm := List.getElem?_mem hk
      simp at hm
    · intro _ e he
      simp only [List.mem_cons, List.mem_singleton, List.not_mem_nil, or_false] at he
      rcases he with rfl | rfl | rfl | rfl | rfl | rfl | rfl <;>
        simp [Event.isExporterEvent, Event.touchesOutput]
  cases h3 : self.m_pManager.exporterInit out (self.fileFormatIDToUse fmt)
  · rw [convert_exporterInitFail self s inp out fmt h1 h2 h3, newEvents_append]
    refine ⟨?_, ?_, ?_⟩
    · intro k e hk he
      have h6 : 4 < k := by
        by_contra hlt
        have : k = 0 ∨ k = 1 ∨ k = 2 ∨ k = 3 ∨ k = 4 := by omega
        rcases this with rfl | rfl | rfl | rfl | rfl <;>
          simp at hk <;> subst hk <;> simp [Event.isExporterEvent] at he
      exact ⟨2, 4, importerOf s, sceneOf s, by omega, h6, rfl, rfl, rfl, rfl⟩
    · intro k h sc ok hk
      exfalso
      have hm := List.getElem?_mem hk
      simp at hm
    · intro hor
      simp at hor
  · rw [convert_exported self s inp out fmt h1 h2 h3, newEvents_append]
    refine ⟨?_, ?_, ?_⟩
    · intro k e hk he
      have h6 : 4 < k := by
        by_contra hlt
        have : k = 0 ∨ k = 1 ∨ k = 2 ∨ k = 3 ∨ k = 4 := by omega
        rcases this with rfl | rfl | rfl | rfl | rfl <;>
          simp at hk <;> subst hk <;> simp [Event.isExporterEvent] at he
      exact ⟨2, 4, importerOf s, sceneOf s, by omega, h6, rfl, rfl, rfl, rfl⟩
    · intro k h sc ok hk
      have hk8 : k = 8 := by
        by_contra hne
        have : k = 0 ∨ k = 1 ∨ k = 2 ∨ k = 3 ∨ k = 4 ∨ k = 5 ∨ k = 6 ∨ k = 7 ∨ k = 9 ∨
            k = 10 ∨ 11 ≤ k := by omega
        rcases this with rfl | rfl | rfl | rfl | rfl | rfl | rfl | rfl | rfl | rfl | h11
        all_goals try (simp at hk)
        obtain ⟨n, rfl⟩ : ∃ n, k = n + 11 := ⟨k - 11, by omega⟩
        simp at hk
      subst hk8
      simp at hk
      obtain ⟨rfl, rfl, rfl⟩ := hk
      exact ⟨6, 7, _, by omega, by omega, rfl, rfl⟩
    · intro hor
      simp at hor

/-! ## Branches of `main` -/

/-- With a non-empty `-c` and exactly one flag, `main` runs the conversion,
drops its status and returns 0. -/
theorem main_valid (created : Option FbxManager) (p : cli.Parser) (conv : FbxConverter)
    (hrun : p.run = true) (hnew : FbxConverter.new created = some conv)
    (hc : (getC p).isEmpty = false) (hx : getBinary p ≠ getAscii p) :
    main created p = some (0, FbxConverter.delete
      (conv.ConvertFbxFile startState (getC p) (getO p) (selectedFormat p)).2) := by
  unfold main
  simp only [hrun, if_true, hnew, hc, Bool.not_false]
  cases hb : getBinary p <;> cases ha : getAscii p <;> simp [hb, ha] at hx ⊢ <;>
    simp [selectedFormat, hb, startState]

/-- With an empty `-c`, both flags or no flag, `main` prints the help text and
returns 1 without entering the converter. -/
theorem main_invalid (created : Option FbxManager) (p : cli.Parser) (conv : FbxConverter)
    (hrun : p.run = true) (hnew : FbxConverter.new created = some conv)
    (hbad : (getC p).isEmpty = true ∨ (getBinary p = true ∧ getAscii p = true) ∨
      (getBinary p = false ∧ getAscii p = false)) :
    ∃ msg, main created p = some (1, FbxConverter.delete (PrintErrorAndHelp startState msg)) := by
  unfold main
  simp only [hrun, if_true, hnew]
  cases hc : (getC p).isEmpty
  · rcases hbad with h | ⟨hb, ha⟩ | ⟨hb, ha⟩
    · rw [hc] at h; cases h
    · exact ⟨some "Having both -ascii and -binary arguments is not allowed.",
        by simp [hb, ha, startState]⟩
    · exact ⟨some "Either -ascii or -binary required!", by simp [hb, ha, startState]⟩
  · exact ⟨none, by simp [startState]⟩

/-- The help text holds no call into the converter and no vendor call. -/
theorem help_log_quiet (msg : Option String) :
    ∀ e ∈ (FbxConverter.delete (PrintErrorAndHelp startState msg)).log,
      e.isConvertCall = false ∧ e.isCreateImporterOrExporter = false ∧
        e.touchesOutput = false ∧ e.isExporterEvent = false := by
  intro e he
  cases msg <;>
    simp [FbxConverter.delete, PrintErrorAndHelp, startState, SdkState.emit,
      SdkState.empty] at he <;>
    rcases he with rfl | rfl | rfl | rfl | rfl | rfl | rfl | rfl <;>
    simp [Event.isConvertCall, Event.isCreateImporterOrExporter, Event.touchesOutput,
      Event.isExporterEvent]

/-! ## Argument validation and exit codes -/

/-- C1: for every command line that parses (in a process whose converter
constructs), `main` enters `ConvertFbxFile` only if the `-c` value is non-empty
and exactly one of `-binary`, `-ascii` is set; when `-c` is empty or absent,
both flags are set or neither is, `main` returns 1 and its log has no call of
`ConvertFbxFile`, no creation of an importer or exporter and no event that
touches an output path. -/
theorem main_converts_only_on_valid_arguments (created : Option FbxManager) (p : cli.Parser)
    (hrun : p.run = true) (hctor : (FbxConverter.new created).isSome = true) :
    ∃ code st, main created p = some (code, st) ∧
      ((∃ e ∈ st.log, e.isConvertCall = true) →
        ((getC p).isEmpty = false ∧ getBinary p ≠ getAscii p)) ∧
      (((getC p).isEmpty = true ∨ (getBinary p = true ∧ getAscii p = true) ∨
          (getBinary p = false ∧ getAscii p = false)) →
        code = 1 ∧ ∀ e ∈ st.log, e.isConvertCall = false ∧
          e.isCreateImporterOrExporter = false ∧ e.touchesOutput = false) := by
  obtain ⟨conv, hnew⟩ := Option.isSome_iff_exists.mp hctor
  by_cases hbad : (getC p).isEmpty = true ∨ (getBinary p = true ∧ getAscii p = true) ∨
      (getBinary p = false ∧ getAscii p = false)
  · obtain ⟨msg, hmain⟩ := main_invalid created p conv hrun hnew hbad
    refine ⟨1, _, hmain, ?_, ?_⟩
    · rintro ⟨e, he, hcall⟩
      have := (help_log_quiet msg e he).1
      rw [this] at hcall
      cases hcall
    · intro _
      exact ⟨rfl, fun e he =>
        ⟨(help_log_quiet msg e he).1, (help_log_quiet msg e he).2.1,
          (help_log_quiet msg e he).2.2.1⟩⟩
  · have hc : (getC p).isEmpty = false := by
      cases h : (getC p).isEmpty
      · rfl
      · exact absurd (Or.inl h) hbad
    have hx : getBinary p ≠ getAscii p := by
      intro h
      apply hbad
      right
      cases hb : getBinary p
      · right; exact ⟨rfl, by rw [← h, hb]⟩
      · left; exact ⟨rfl, by rw [← h, hb]⟩
    exact ⟨0, _, main_valid created p conv hrun hnew hc hx, fun _ => ⟨hc, hx⟩,
      fun h => absurd h hbad⟩

/-- C1 at a concrete command line: `-c in.fbx -binary -ascii` exits with 1 and
never enters the converter. -/
theorem main_converts_only_on_valid_arguments_witness :
    ∃ code st,
      main (some (sampleManager true true true true))
        (sampleArgs (some "in.fbx") (some "out.fbx") (some true) (some true)) = some (code, st) ∧
      ((∃ e ∈ st.log, e.isConvertCall = true) →
        ((getC (sampleArgs (some "in.fbx") (some "out.fbx") (some true) (some true))).isEmpty
            = false ∧
          getBinary (sampleArgs (some "in.fbx") (some "out.fbx") (some true) (some true)) ≠
            getAscii (sampleArgs (some "in.fbx") (some "out.fbx") (some true) (some true)))) ∧
      (((getC (sampleArgs (some "in.fbx") (some "out.fbx") (some true) (some true))).isEmpty
            = true ∨
          (getBinary (sampleArgs (some "in.fbx") (some "out.fbx") (some true) (some true)) = true ∧
            getAscii (sampleArgs (some "in.fbx") (some "out.fbx") (some true) (some true))
              = true) ∨
          (getBinary (sampleArgs (some "in.fbx") (some "out.fbx") (some true) (some true)) = false ∧
            getAscii (sampleArgs (some "in.fbx") (some "out.fbx") (some true) (some true))
              = false)) →
        code = 1 ∧ ∀ e ∈ st.log, e.isConvertCall = false ∧
          e.isCreateImporterOrExporter = false ∧ e.touchesOutput = false) :=
  main_converts_only_on_valid_arguments (some (sampleManager true true true true))
    (sampleArgs (some "in.fbx") (some "out.fbx") (some true) (some true)) rfl rfl

/-- C5: for every invocation with a non-empty `-c` and exactly one of
`-binary`, `-ascii` (the command line parses and the converter constructs),
`main` returns exit code 0 whatever the vendor calls answer and whatever
`ConvertFbxFile` returns. -/
theorem main_exit_code_zero_after_conversion (created : Option FbxManager) (p : cli.Parser)
    (hrun : p.run = true) (hctor : (FbxConverter.new created).isSome = true)
    (hc : (getC p).isEmpty = false) (hx : getBinary p ≠ getAscii p) :
    (main created p).map Prod.fst = some 0 := by
  obtain ⟨conv, hnew⟩ := Option.isSome_iff_exists.mp hctor
  rw [main_valid created p conv hrun hnew hc hx]
  rfl

/-- C5 at concrete inputs: the exit code is 0 when the importer fails to
initialise and also when every vendor call succeeds. -/
theorem main_exit_code_zero_after_conversion_witness :
    (main (some (sampleManager false false false false))
        (sampleArgs (some "missing.fbx") none (some true) none)).map Prod.fst = some 0 ∧
    (main (some (sampleManager true true true true))
        (sampleArgs (some "in.fbx") (some "out.fbx") none (some true))).map Prod.fst = some 0 :=
  ⟨main_exit_code_zero_after_conversion (some (sampleManager false false false false))
      (sampleArgs (some "missing.fbx") none (some true) none) rfl rfl rfl (by decide),
   main_exit_code_zero_after_conversion (some (sampleManager true true true true))
      (sampleArgs (some "in.fbx") (some "out.fbx") none (some true)) rfl rfl rfl (by decide)⟩

/-- C4 as stated fails: for `-c missing.fbx -binary` with an importer that
cannot be initialised, the converter constructs, `ConvertFbxFile` returns 1, and
`main` returns 0, not 1. -/
theorem main_exit_code_not_one_when_convert_fails :
    (FbxConverter.new (some (sampleManager false false false false))).isSome = true ∧
    (getC (sampleArgs (some "missing.fbx") none (some true) none)).isEmpty = false ∧
    getBinary (sampleArgs (some "missing.fbx") none (some true) none) ≠
      getAscii (sampleArgs (some "missing.fbx") none (some true) none) ∧
    ((sampleConverter false false false false).ConvertFbxFile startState "missing.fbx" ""
        FileFormat.Binary).1 = 1 ∧
    (main (some (sampleManager false false false false))
        (sampleArgs (some "missing.fbx") none (some true) none)).map Prod.fst = some 0 ∧
    (main (some (sampleManager false false false false))
        (sampleArgs (some "missing.fbx") none (some true) none)).map Prod.fst ≠ some 1 := by
  refine ⟨rfl, rfl, by decide, rfl, rfl, ?_⟩
  intro h
  have h0 : (main (some (sampleManager false false false false))
        (sampleArgs (some "missing.fbx") none (some true) none)).map Prod.fst = some 0 := rfl
  rw [h0] at h
  cases h

/-- C4 amended: for every invocation with a non-empty `-c` and exactly one of
`-binary`, `-ascii`, if `ConvertFbxFile` returns 1 then `main` still returns
exit code 0: it keeps only the state the call left behind and discards the
returned status. -/
theorem main_discards_convert_status (created : Option FbxManager) (p : cli.Parser)
    (conv : FbxConverter) (hrun : p.run = true) (hnew : FbxConverter.new created = some conv)
    (hc : (getC p).isEmpty = false) (hx : getBinary p ≠ getAscii p)
    (hfail : (conv.ConvertFbxFile startState (getC p) (getO p) (selectedFormat p)).1 = 1) :
    main created p = some (0, FbxConverter.delete
      (conv.ConvertFbxFile startState (getC p) (getO p) (selectedFormat p)).2) ∧
    (main created p).map Prod.fst ≠
      some (conv.ConvertFbxFile startState (getC p) (getO p) (selectedFormat p)).1 := by
  refine ⟨main_valid created p conv hrun hnew hc hx, ?_⟩
  rw [main_valid created p conv hrun hnew hc hx, hfail]
  intro h
  cases h

/-- C4 amended, at the concrete failing import. -/
theorem main_discards_convert_status_witness :
    main (some (sampleManager false false false false))
        (sampleArgs (some "missing.fbx") none (some true) none) =
      some (0, FbxConverter.delete
        ((sampleConverter false false false false).ConvertFbxFile startState
          (getC (sampleArgs (some "missing.fbx") none (some true) none))
          (getO (sampleArgs (some "missing.fbx") none (some true) none))
          (selectedFormat (sampleArgs (some "missing.fbx") none (some true) none))).2) ∧
    (main (some (sampleManager false false false false))
        (sampleArgs (some "missing.fbx") none (some true) none)).map Prod.fst ≠
      some ((sampleConverter false false false false).ConvertFbxFile startState
          (getC (sampleArgs (some "missing.fbx") none (some true) none))
          (getO (sampleArgs (some "missing.fbx") none (some true) none))
          (selectedFormat (sampleArgs (some "missing.fbx") none (some true) none))).1 :=
  main_discards_convert_status (some (sampleManager false false false false))
    (sampleArgs (some "missing.fbx") none (some true) none)
    (sampleConverter false false false false) rfl rfl rfl (by decide) rfl

/-! ## What the exporter receives -/

/-- C6: for every invocation with a non-empty `-c` and exactly one of
`-binary`, `-ascii` in which importer initialisation and import succeed, the
exporter is initialised exactly once, on the `-o` value unchanged (the empty
string when `-o` is omitted) and with the stored binary writer ID when
`-binary` was given, the stored ascii writer ID when `-ascii` was given. -/
theorem exporter_receives_output_path_and_writer (created : Option FbxManager)
    (p : cli.Parser) (conv : FbxConverter) (hrun : p.run = true)
    (hnew : FbxConverter.new created = some conv)
    (hc : (getC p).isEmpty = false) (hx : getBinary p ≠ getAscii p)
    (h1 : conv.m_pManager.importerInit (getC p) (-1) = true)
    (h2 : conv.m_pManager.importerImport (getC p) = true) :
    ∃ code st, main created p = some (code, st) ∧
      (∃ h id ok, Event.exporterInitialize h (getO p) id ok ∈ st.log) ∧
      (∀ h path id ok, Event.exporterInitialize h path id ok ∈ st.log →
        path = getO p ∧
        (getBinary p = true → id = conv.m_binaryWriteID) ∧
        (getAscii p = true → id = conv.m_asciiWriterID)) ∧
      (p.o = none → getO p = "") := by
  have hid : (getBinary p = true →
        conv.fileFormatIDToUse (selectedFormat p) = conv.m_binaryWriteID) ∧
      (getAscii p = true →
        conv.fileFormatIDToUse (selectedFormat p) = conv.m_asciiWriterID) := by
    cases hb : getBinary p <;> cases ha : getAscii p <;>
      simp [hb, ha, selectedFormat, FbxConverter.fileFormatIDToUse] at hx ⊢
  refine ⟨0, _, main_valid created p conv hrun hnew hc hx, ?_, ?_, ?_⟩
  · cases h3 : conv.m_pManager.exporterInit (getO p) (conv.fileFormatIDToUse (selectedFormat p))
    · rw [convert_exporterInitFail conv startState _ _ _ h1 h2 h3]
      exact ⟨exporterOf startState, conv.fileFormatIDToUse (selectedFormat p), false,
        by simp [FbxConverter.delete, SdkState.emit]⟩
    · rw [convert_exported conv startState _ _ _ h1 h2 h3]
      exact ⟨exporterOf startState, conv.fileFormatIDToUse (selectedFormat p), true,
        by simp [FbxConverter.delete, SdkState.emit]⟩
  · intro h path id ok hmem
    have key : path = getO p ∧ id = conv.fileFormatIDToUse (selectedFormat p) := by
      cases h3 : conv.m_pManager.exporterInit (getO p)
          (conv.fileFormatIDToUse (selectedFormat p))
      · rw [convert_exporterInitFail conv startState _ _ _ h1 h2 h3] at hmem
        simp [FbxConverter.delete, SdkState.emit, startState, SdkState.empty] at hmem
        exact ⟨hmem.2.1, hmem.2.2.1⟩
      · rw [convert_exported conv startState _ _ _ h1 h2 h3] at hmem
        simp [FbxConverter.delete, SdkState.emit, startState, SdkState.empty] at hmem
        exact ⟨hmem.2.1, hmem.2.2.1⟩
    refine ⟨key.1, fun hb => ?_, fun ha => ?_⟩
    · rw [key.2]; exact hid.1 hb
    · rw [key.2]; exact hid.2 ha
  · intro ho
    simp [getO, ho]

/-- C6 at a concrete command line: `-c in.fbx -ascii` without `-o` initialises
the exporter on the empty path with the ascii writer ID. -/
theorem exporter_receives_output_path_and_writer_witness :
    ∃ code st,
      main (some (sampleManager true true true true))
        (sampleArgs (some "in.fbx") none none (some true)) = some (code, st) ∧
      (∃ h id ok, Event.exporterInitialize h
        (getO (sampleArgs (some "in.fbx") none none (some true))) id ok ∈ st.log) ∧
      (∀ h path id ok, Event.exporterInitialize h path id ok ∈ st.log →
        path = getO (sampleArgs (some "in.fbx") none none (some true)) ∧
        (getBinary (sampleArgs (some "in.fbx") none none (some true)) = true →
          id = (sampleConverter true true true true).m_binaryWriteID) ∧
        (getAscii (sampleArgs (some "in.fbx") none none (some true)) = true →
          id = (sampleConverter true true true true).m_asciiWriterID)) ∧
      ((sampleArgs (some "in.fbx") none none (some true)).o = none →
        getO (sampleArgs (some "in.fbx") none none (some true)) = "") :=
  exporter_receives_output_path_and_writer (some (sampleManager true true true true))
    (sampleArgs (some "in.fbx") none none (some true)) (sampleConverter true true true true)
    rfl rfl rfl (by decide) rfl rfl

/-! ## Lifetime of vendor objects -/

/-- C8 as stated fails: after a fully successful conversion started with no
live object, the scene the call created is still alive, so the live objects
after the call are not those before it. -/
theorem convert_leaves_scene_alive :
    ((sampleConverter true true true true).ConvertFbxFile SdkState.empty "in.fbx" "out.fbx"
        FileFormat.Binary).1 = 0 ∧
    Event.sceneCreate ⟨.scene, 2⟩ ∈
      ((sampleConverter true true true true).ConvertFbxFile SdkState.empty "in.fbx" "out.fbx"
        FileFormat.Binary).2.log ∧
    ((sampleConverter true true true true).ConvertFbxFile SdkState.empty "in.fbx" "out.fbx"
        FileFormat.Binary).2.live = [⟨.scene, 2⟩] ∧
    ((sampleConverter true true true true).ConvertFbxFile SdkState.empty "in.fbx" "out.fbx"
        FileFormat.Binary).2.live ≠ SdkState.empty.live := by
  decide

/-- C8 amended: on every return path of `ConvertFbxFile` on which importer
initialisation succeeded and exporter initialisation, when reached, succeeded
(import failure, export success, export failure), every importer and exporter
the call created has been released before it returns, while the scene it
created has not: the live objects after the call are those before it followed
by that one new scene. -/
theorem convert_releases_importer_and_exporter (self : FbxConverter) (s : SdkState)
    (inp out : String) (fmt : FileFormat)
    (h1 : self.m_pManager.importerInit inp (-1) = true)
    (h3 : self.m_pManager.importerImport inp = true →
      self.m_pManager.exporterInit out (self.fileFormatIDToUse fmt) = true) :
    (∀ h, (Event.importerCreate h ∈ newEvents s (self.ConvertFbxFile s inp out fmt).2 ∨
          Event.exporterCreate h ∈ newEvents s (self.ConvertFbxFile s inp out fmt).2) →
        h ∉ (self.ConvertFbxFile s inp out fmt).2.live) ∧
    (∃ sc, Event.sceneCreate sc ∈ newEvents s (self.ConvertFbxFile s inp out fmt).2 ∧
      sc ∉ s.live ∧ (self.ConvertFbxFile s inp out fmt).2.live = s.live ++ [sc]) := by
  have hi : importerOf s ∉ s.live ++ [sceneOf s] := by
    simp only [List.mem_append, List.mem_singleton, not_or]
    exact ⟨importerOf_not_mem s, by simp [importerOf, sceneOf]⟩
  have he : exporterOf s ∉ s.live ++ [sceneOf s] := by
    simp only [List.mem_append, List.mem_singleton, not_or]
    exact ⟨exporterOf_not_mem s, fun h => sceneOf_ne_exporterOf s h.symm⟩
  cases h2 : self.m_pManager.importerImport inp
  · rw [convert_importFail self s inp out fmt h1 h2, newEvents_append]
    refine ⟨?_, sceneOf s, by simp, sceneOf_not_mem s, rfl⟩
    intro h hm
    simp at hm
    subst hm
    exact hi
  · rw [convert_exported self s inp out fmt h1 h2 (h3 h2), newEvents_append]
    refine ⟨?_, sceneOf s, by simp, sceneOf_not_mem s, rfl⟩
    intro h hm
    simp at hm
    rcases hm with rfl | rfl
    · exact hi
    · exact he

/-- C8 amended, at a concrete failing export. -/
theorem convert_releases_importer_and_exporter_witness :
    (∀ h, (Event.importerCreate h ∈ newEvents SdkState.empty
            ((sampleConverter true true true false).ConvertFbxFile SdkState.empty "in.fbx"
              "out.fbx" FileFormat.Binary).2 ∨
          Event.exporterCreate h ∈ newEvents SdkState.empty
            ((sampleConverter true true true false).ConvertFbxFile SdkState.empty "in.fbx"
              "out.fbx" FileFormat.Binary).2) →
        h ∉ ((sampleConverter true true true false).ConvertFbxFile SdkState.empty "in.fbx"
              "out.fbx" FileFormat.Binary).2.live) ∧
    (∃ sc, Event.sceneCreate sc ∈ newEvents SdkState.empty
          ((sampleConverter true true true false).ConvertFbxFile SdkState.empty "in.fbx"
            "out.fbx" FileFormat.Binary).2 ∧
      sc ∉ SdkState.empty.live ∧
      ((sampleConverter true true true false).ConvertFbxFile SdkState.empty "in.fbx"
            "out.fbx" FileFormat.Binary).2.live = SdkState.empty.live ++ [sc]) :=
  convert_releases_importer_and_exporter (sampleConverter true true true false) SdkState.empty
    "in.fbx" "out.fbx" FileFormat.Binary rfl (fun _ => rfl)

/-! ## Format detection -/

/-- C9: for every non-empty path, `IsFbxFile` returns exactly what the vendor
registry answers to `ReaderIsFBX` for the reader ID that
`DetectReaderFileFormat` leaves in `readerID`, which starts at `-1`: true when
that reader is of the FBX family, false when it is not, and false when
detection leaves the ID at `-1` and the registry answers false for `-1`. -/
theorem isFbxFile_is_registry_answer (self : FbxConverter) (inputFilepath : String)
    (hne : inputFilepath.isEmpty = false) :
    self.IsFbxFile inputFilepath = some (self.m_pManager.ReaderIsFBX
      (self.m_pManager.DetectReaderFileFormat inputFilepath (-1)).2) ∧
    (self.m_pManager.ReaderIsFBX
        (self.m_pManager.DetectReaderFileFormat inputFilepath (-1)).2 = true →
      self.IsFbxFile inputFilepath = some true) ∧
    (self.m_pManager.ReaderIsFBX
        (self.m_pManager.DetectReaderFileFormat inputFilepath (-1)).2 = false →
      self.IsFbxFile inputFilepath = some false) ∧
    ((self.m_pManager.DetectReaderFileFormat inputFilepath (-1)).2 = -1 →
      self.m_pManager.ReaderIsFBX (-1) = false →
      self.IsFbxFile inputFilepath = some false) := by
  have h : self.IsFbxFile inputFilepath = some (self.m_pManager.ReaderIsFBX
      (self.m_pManager.DetectReaderFileFormat inputFilepath (-1)).2) := by
    simp [FbxConverter.IsFbxFile, hne]
  refine ⟨h, ?_, ?_, ?_⟩
  · intro ht; rw [h, ht]
  · intro hf; rw [h, hf]
  · intro hd hf; rw [h, hd, hf]

/-- C9 at concrete paths: a detected FBX reader gives true, and a file the
detection does not recognise gives false. -/
theorem isFbxFile_is_registry_answer_witness :
    (sampleConverter true true true true).IsFbxFile "a.fbx" = some true ∧
    (sampleConverter true true true true).IsFbxFile "notes.txt" = some false :=
  ⟨(isFbxFile_is_registry_answer (sampleConverter true true true true) "a.fbx" rfl).2.1 rfl,
   (isFbxFile_is_registry_answer (sampleConverter true true true true) "notes.txt" rfl).2.2.2
      rfl rfl⟩

/-- C3 at a concrete successful run: the exporter is initialised at position 7
of the log, after the successful `Initialize` and `Import` of the importer. -/
theorem export_only_after_successful_import_witness :
    ∃ (i j : Nat) (h sc : Handle), i < j ∧ j < 7 ∧
      (newEvents SdkState.empty ((sampleConverter true true true true).ConvertFbxFile
          SdkState.empty "in.fbx" "out.fbx" FileFormat.Binary).2)[i]? =
        some (.importerInitialize h "in.fbx" (-1) true) ∧
      (newEvents SdkState.empty ((sampleConverter true true true true).ConvertFbxFile
          SdkState.empty "in.fbx" "out.fbx" FileFormat.Binary).2)[j]? =
        some (.importerImport h sc true) ∧
      (sampleConverter true true true true).m_pManager.importerInit "in.fbx" (-1) = true ∧
      (sampleConverter true true true true).m_pManager.importerImport "in.fbx" = true :=
  (export_only_after_successful_import (sampleConverter true true true true) SdkState.empty
    "in.fbx" "out.fbx" FileFormat.Binary).1 7
    (.exporterInitialize ⟨.exporter, 3⟩ "out.fbx" 0 true) rfl rfl

/-- C7 at a concrete registry: an entry with the ascii description that is not
flagged FBX is skipped, and the constructor stores the indices 0 and 2. -/
theorem ctor_succeeds_iff_both_writers_found_witness :
    (∃ (i : Nat) (w : WriterFormat), (0 : Int) = (i : Int) ∧
        (sampleManager true true true true).writers.get? i = some w ∧
        w.isFBX = true ∧ w.description = "FBX binary (*.fbx)") ∧
    (∃ (j : Nat) (w : WriterFormat), (2 : Int) = (j : Int) ∧
        (sampleManager true true true true).writers.get? j = some w ∧
        w.isFBX = true ∧ w.description = "FBX ascii (*.fbx)") :=
  (ctor_succeeds_iff_both_writers_found (sampleManager true true true true)).2
    (sampleConverter true true true true) rfl

/-- A registry whose only ascii entry is not flagged FBX: construction fails. -/
theorem ctor_fails_without_flagged_ascii :
    (FbxConverter.new (some { sampleManager true true true true with
      writers := [⟨true, "FBX binary (*.fbx)"⟩, ⟨false, "FBX ascii (*.fbx)"⟩] })).isSome
      = false := by
  rfl

/-- The two initialisation-failure paths of `ConvertFbxFile` return while the
importer, or the exporter, they created is still alive. -/
theorem convert_init_failures_keep_objects_alive :
    ((sampleConverter false true true true).ConvertFbxFile SdkState.empty "in.fbx" "out.fbx"
        FileFormat.Binary).2.live = [⟨.importer, 1⟩] ∧
    ((sampleConverter true true false true).ConvertFbxFile SdkState.empty "in.fbx" "out.fbx"
        FileFormat.Binary).2.live = [⟨.scene, 2⟩, ⟨.exporter, 3⟩] := by
  decide

end FbxFormatConverter
